import Mathlib

/-!
Verification of the adaptive UDP bandwidth ramp controller
(`adaptive_udp.py`): bandwidth string codec, probe-outcome handling,
threshold evaluation, the ramp/confirm/stepdown state machine, and the
output metadata merge. Numeric values are modelled as rationals; the
external probe tool is modelled as an oracle giving the outcome of each
successive probe invocation.
-/

attribute [local semireducible] Rat.mul Rat.add Rat.sub Rat.inv Nat.gcd

/-! ### Decimal rendering and parsing helpers -/

/-- Decimal digits of a natural number, most significant first
(fuel-based so that the kernel can evaluate it). -/
def natToDecimalAux (fuel : Nat) (n : Nat) (acc : List Char) : List Char :=
  match fuel with
  | 0 => acc
  | fuel + 1 =>
    let d := Char.ofNat (48 + n % 10)
    if n / 10 = 0 then d :: acc
    else natToDecimalAux fuel (n / 10) (d :: acc)

/-- Decimal string of a natural number. -/
def natToDecimal (n : Nat) : String :=
  String.mk (natToDecimalAux (n + 1) n [])

/-- Decimal string of an integer (sign in front when negative), as
Python prints an int inside an f-string. -/
def intToDecimal (i : Int) : String :=
  if i < 0 then "-" ++ natToDecimal i.natAbs else natToDecimal i.toNat

/-- Floor of a rational as an integer. -/
def qfloor (q : ℚ) : Int :=
  q.num.fdiv q.den

/-- Round a rational to the nearest integer, ties to even: the rounding
used by Python float formatting, restricted to the exact values the
controller feeds it. -/
def rhe (x : ℚ) : Int :=
  let f := qfloor x
  let r := x - f
  if r < 1 / 2 then f
  else if r > 1 / 2 then f + 1
  else if f % 2 = 0 then f else f + 1

/-- Left-pad a fractional part to three digits. -/
def pad3 (n : Nat) : String :=
  if n < 10 then "00" ++ natToDecimal n
  else if n < 100 then "0" ++ natToDecimal n
  else natToDecimal n

/-- Model of the Python format `f"{q:.3f}"` for a nonnegative rational:
three digits after the decimal point, round half to even. -/
def fmt3 (q : ℚ) : String :=
  let n := (rhe (q * 1000)).toNat
  natToDecimal (n / 1000) ++ "." ++ pad3 (n % 1000)

/-- Model of the Python format `f"{q:.0f}"` for a nonnegative rational. -/
def fmt0 (q : ℚ) : String :=
  natToDecimal (rhe q).toNat

/-! ### Bandwidth codec (`parse_bps` / `bps_to_str`) -/

/-- `bps_to_str` from the source: pick the largest unit (G, M, K) whose
scale the value reaches, format the scaled value to three decimals and
append the unit letter; below 1K use an integer format with no letter. -/
def bps_to_str (bps : ℚ) : String :=
  if bps ≥ 1000000000 then fmt3 (bps / 1000000000) ++ "G"
  else if bps ≥ 1000000 then fmt3 (bps / 1000000) ++ "M"
  else if bps ≥ 1000 then fmt3 (bps / 1000) ++ "K"
  else fmt0 bps

/-- Numeric value of a list of decimal digit characters. -/
def digitsVal (cs : List Char) : Nat :=
  cs.foldl (fun n c => n * 10 + (c.toNat - 48)) 0

/-- Split a character list at the first dot, if any. -/
def splitDot : List Char → List Char × Option (List Char)
  | [] => ([], none)
  | c :: rest =>
    if c = '.' then ([], some rest)
    else
      let p := splitDot rest
      (c :: p.1, p.2)

/-- Model of Python `float(s)` restricted to the unsigned decimal
literals the controller produces and consumes: an integer part and an
optional fractional part, at least one digit overall; anything else
fails. -/
def parseDecimal (cs : List Char) : Option ℚ :=
  match splitDot cs with
  | (i, none) =>
    if !i.isEmpty && i.all Char.isDigit then some (digitsVal i : ℚ) else none
  | (i, some f) =>
    if (!i.isEmpty || !f.isEmpty) && i.all Char.isDigit && f.all Char.isDigit then
      some ((digitsVal i : ℚ) + (digitsVal f : ℚ) / (10 ^ f.length))
    else none

/-- Python `str.strip()` on a character list. -/
def stripWs (cs : List Char) : List Char :=
  ((cs.dropWhile Char.isWhitespace).reverse.dropWhile Char.isWhitespace).reverse

/-- Trailing-unit handling of `parse_bps`: strip one trailing unit
letter k/m/g/t and return the corresponding multiplier. -/
def stripUnit (cs : List Char) : ℚ × List Char :=
  match cs.getLast? with
  | some c =>
    if c = 'k' then (1000, cs.dropLast)
    else if c = 'm' then (1000000, cs.dropLast)
    else if c = 'g' then (1000000000, cs.dropLast)
    else if c = 't' then (1000000000000, cs.dropLast)
    else (1, cs)
  | none => (1, cs)

/-- `parse_bps` from the source: trim and lower-case, empty fails, strip
an optional trailing unit letter with its multiplier, parse the rest as
a number and scale it. -/
def parse_bps (value : String) : Option ℚ :=
  let s := (stripWs value.toList).map Char.toLower
  if s.isEmpty then none
  else
    let p := stripUnit s
    (parseDecimal p.2).map (fun q => q * p.1)

/-! ### Probe outcomes (`run_iperf` / `extract_udp_stats`) -/

/-- The measurement fields `extract_udp_stats` reads from the tool
output; any of them may be absent. -/
structure Stats where
  throughput_bps : Option ℚ
  jitter_ms : Option ℚ
  loss_percent : Option ℚ
  packets : Option ℚ
deriving DecidableEq

/-- What the external tool invocation did: timed out, or completed with
an exit code and (when the output was parseable JSON) the extracted
stats. -/
inductive ExecOutcome where
  | timedOut
  | completed (returncode : Int) (parsed : Option Stats)
deriving DecidableEq

/-- Result of `run_iperf` as seen by the controller: an error string or
measured stats. -/
inductive ProbeResult where
  | error (kind : String)
  | data (stats : Stats)
deriving DecidableEq

/-- `run_iperf` from the source: a timeout gives error `timeout`, a
nonzero exit code gives error `exit_<returncode>`, unparseable output
gives error `json_parse`, otherwise the measured data. -/
def run_iperf (ex : ExecOutcome) : ProbeResult :=
  match ex with
  | .timedOut => .error "timeout"
  | .completed rc parsed =>
    if rc ≠ 0 then .error ("exit_" ++ intToDecimal rc)
    else
      match parsed with
      | none => .error "json_parse"
      | some stats => .data stats

/-! ### Session data model -/

/-- Role of a step: the Python code marks confirm steps with a
`confirm` key and stepdown steps with a `fallback` key; plain ramp
steps carry neither. -/
inductive Role where
  | normal
  | confirm
  | fallback
deriving DecidableEq

/-- One entry of the session step list, as built by `main`: target,
its string form, role marker, acceptance flag, error string for failed
probes, and the measured fields for measured probes. -/
structure StepRecord where
  target_bps : ℚ
  target_str : String
  role : Role
  ok : Bool
  error : Option String
  throughput_bps : Option ℚ
  jitter_ms : Option ℚ
  loss_percent : Option ℚ
  packets : Option ℚ
deriving DecidableEq

/-- The numeric configuration of a session: parsed start/step/max
bandwidths and the three thresholds. -/
structure Config where
  start_bps : ℚ
  step_bps : ℚ
  max_bps : ℚ
  loss_threshold : ℚ
  jitter_threshold : ℚ
  drop_threshold : ℚ
deriving DecidableEq

/-- The mutable state of the main loop: accumulated steps, last
accepted step, stop reason, drop baseline, one-shot fallback flag,
current target, and the number of probe invocations made so far (used
to index the probe oracle). -/
structure LoopState where
  steps : List StepRecord
  last_ok : Option StepRecord
  stop_reason : String
  prev_throughput : Option ℚ
  fallback_attempted : Bool
  current : ℚ
  calls : Nat
deriving DecidableEq

/-- The step record built for a measured probe: measurement fields
copied from the stats, no error. -/
def measuredStep (target : ℚ) (role : Role) (ok : Bool) (stats : Stats) : StepRecord :=
  { target_bps := target
    target_str := bps_to_str target
    role := role
    ok := ok
    error := none
    throughput_bps := stats.throughput_bps
    jitter_ms := stats.jitter_ms
    loss_percent := stats.loss_percent
    packets := stats.packets }

/-- The step record built for a failed ramp probe: error string set, no
measurement fields. -/
def errorStep (target : ℚ) (e : String) : StepRecord :=
  { target_bps := target
    target_str := bps_to_str target
    role := .normal
    ok := false
    error := some e
    throughput_bps := none
    jitter_ms := none
    loss_percent := none
    packets := none }

/-! ### Threshold evaluation -/

/-- The three sequential threshold checks of the ramp loop, returning
the acceptance flag and the (possibly updated) stop reason: a present
loss above the loss threshold rejects and writes `loss_threshold`, a
present jitter above the jitter threshold rejects and writes
`jitter_threshold`, and a present throughput below the drop fraction of
a present baseline rejects and writes `throughput_drop`; a later check
that triggers overwrites the reason written by an earlier one. -/
def evalChecks (cfg : Config) (prev_throughput : Option ℚ) (stats : Stats)
    (stop_reason : String) : Bool × String :=
  let r1 : Bool × String :=
    match stats.loss_percent with
    | some loss =>
      if loss > cfg.loss_threshold then (false, "loss_threshold") else (true, stop_reason)
    | none => (true, stop_reason)
  let r2 : Bool × String :=
    match stats.jitter_ms with
    | some jitter =>
      if jitter > cfg.jitter_threshold then (false, "jitter_threshold") else r1
    | none => r1
  let r3 : Bool × String :=
    match prev_throughput, stats.throughput_bps with
    | some prev, some tp =>
      if tp < prev * (1 - cfg.drop_threshold / 100) then (false, "throughput_drop") else r2
    | _, _ => r2
  r3

/-- The same three checks as used for confirm and stepdown probes,
where the code computes only the acceptance flag and leaves the stop
reason untouched. -/
def stepOk (cfg : Config) (prev_throughput : Option ℚ) (stats : Stats) : Bool :=
  let ok1 : Bool :=
    match stats.loss_percent with
    | some loss => if loss > cfg.loss_threshold then false else true
    | none => true
  let ok2 : Bool :=
    match stats.jitter_ms with
    | some jitter => if jitter > cfg.jitter_threshold then false else ok1
    | none => ok1
  let ok3 : Bool :=
    match prev_throughput, stats.throughput_bps with
    | some prev, some tp =>
      if tp < prev * (1 - cfg.drop_threshold / 100) then false else ok2
    | _, _ => ok2
  ok3

/-! ### The ramp state machine -/

/-- The single stepdown attempt after a failed or rejected confirm:
probe once at `max(start, last_accepted - step)`, but only when that
target is strictly below the last accepted target; a failed probe
records nothing; an accepted probe becomes the selection and appends
the stepdown suffix to the stop reason. -/
def doStepdown (cfg : Config) (probes : Nat → ExecOutcome) (st : LoopState)
    (lastOk : StepRecord) : LoopState :=
  let down := max cfg.start_bps (lastOk.target_bps - cfg.step_bps)
  if down < lastOk.target_bps then
    let res := run_iperf (probes st.calls)
    let st1 := { st with calls := st.calls + 1 }
    match res with
    | .error _ => st1
    | .data stats =>
      let okr := stepOk cfg st1.prev_throughput stats
      let rstep := measuredStep down .fallback okr stats
      let st2 := { st1 with steps := st1.steps ++ [rstep] }
      if okr then
        { st2 with last_ok := some rstep
                   stop_reason := st2.stop_reason ++ "_fallback_stepdown" }
      else st2
  else st

/-- The one-shot fallback protocol run on the first threshold
violation: one confirm probe at the last accepted target; a failed
confirm records nothing and goes on to the stepdown; an accepted
confirm becomes the selection, appends the confirmed suffix to the
stop reason and ends the session; a rejected confirm is recorded and
goes on to the stepdown. -/
def doFallback (cfg : Config) (probes : Nat → ExecOutcome) (st : LoopState)
    (lastOk : StepRecord) : LoopState :=
  let res := run_iperf (probes st.calls)
  let st1 := { st with calls := st.calls + 1 }
  match res with
  | .error _ => doStepdown cfg probes st1 lastOk
  | .data stats =>
    let okc := stepOk cfg st1.prev_throughput stats
    let cstep := measuredStep lastOk.target_bps .confirm okc stats
    let st2 := { st1 with steps := st1.steps ++ [cstep] }
    if okc then
      { st2 with last_ok := some cstep
                 stop_reason := st2.stop_reason ++ "_fallback_confirmed" }
    else
      doStepdown cfg probes st2 lastOk

/-- Result of one iteration of the while loop: continue ramping with a
new state, or leave the loop with a final state. -/
inductive IterResult where
  | cont (st : LoopState)
  | done (st : LoopState)
deriving DecidableEq

/-- The state carried by an iteration result. -/
def IterResult.state : IterResult → LoopState
  | .cont st => st
  | .done st => st

/-- One iteration of the ramp loop body: probe at the current target; a
failed probe appends an error record, sets the stop reason to the
failure kind and leaves the loop; a measured probe is evaluated and
recorded; on acceptance the state advances (baseline updated only when
throughput is present) and the loop continues; on rejection the loop
ends, running the fallback protocol when a previously accepted step
exists and the fallback has not been attempted. -/
def rampIter (cfg : Config) (probes : Nat → ExecOutcome) (st : LoopState) : IterResult :=
  let res := run_iperf (probes st.calls)
  let st1 := { st with calls := st.calls + 1 }
  match res with
  | .error e =>
    .done { st1 with steps := st1.steps ++ [errorStep st.current e]
                     stop_reason := e }
  | .data stats =>
    let er := evalChecks cfg st1.prev_throughput stats st1.stop_reason
    let step := measuredStep st.current .normal er.1 stats
    let st2 := { st1 with steps := st1.steps ++ [step], stop_reason := er.2 }
    if er.1 then
      .cont { st2 with
        last_ok := some step
        prev_throughput :=
          match stats.throughput_bps with
          | some t => some t
          | none => st2.prev_throughput
        current := st2.current + cfg.step_bps }
    else
      match st2.last_ok with
      | none => .done st2
      | some lastOk =>
        if st2.fallback_attempted then .done st2
        else .done (doFallback cfg probes { st2 with fallback_attempted := true } lastOk)

/-- The main while loop, fuel-bounded: while the current target is at
most the max plus the 1 bps epsilon, run one iteration; stop when an
iteration leaves the loop. -/
def runLoop (cfg : Config) (probes : Nat → ExecOutcome) : Nat → LoopState → LoopState
  | 0, st => st
  | fuel + 1, st =>
    if st.current ≤ cfg.max_bps + 1 then
      match rampIter cfg probes st with
      | .cont st2 => runLoop cfg probes fuel st2
      | .done st2 => st2
    else st

/-- Initial loop state of a session: no steps, no accepted step, stop
reason `max_reached`, no drop baseline, fallback not attempted, current
target at the configured start. -/
def initState (cfg : Config) : LoopState :=
  { steps := []
    last_ok := none
    stop_reason := "max_reached"
    prev_throughput := none
    fallback_attempted := false
    current := cfg.start_bps
    calls := 0 }

/-- A whole session: run the loop from the initial state. -/
def runSession (cfg : Config) (probes : Nat → ExecOutcome) (fuel : Nat) : LoopState :=
  runLoop cfg probes fuel (initState cfg)

/-! ### Concrete sessions used as test vectors -/

/-- The configuration of the spec scenarios: start 2G, step 2G, max
10G, loss threshold 1 percent, jitter threshold 5 ms, drop threshold 5
percent. -/
def cfgEx : Config :=
  { start_bps := 2000000000
    step_bps := 2000000000
    max_bps := 10000000000
    loss_threshold := 1
    jitter_threshold := 5
    drop_threshold := 5 }

/-- A passing measurement: loss 0.1 percent, jitter 1 ms, throughput
absent. -/
def statsGood : Stats :=
  { throughput_bps := none, jitter_ms := some 1, loss_percent := some (1 / 10), packets := none }

/-- A rejected measurement: loss 2 percent (above the 1 percent
threshold), jitter 1 ms. -/
def statsBad : Stats :=
  { throughput_bps := none, jitter_ms := some 1, loss_percent := some 2, packets := none }

/-- A doubly rejected measurement: loss 2 percent and jitter 10 ms,
both above their thresholds. -/
def statsBothBad : Stats :=
  { throughput_bps := none, jitter_ms := some 10, loss_percent := some 2, packets := none }

/-- A measurement sitting exactly on both inclusive bounds: loss 1
percent and jitter 5 ms, equal to the thresholds of `cfgEx`. -/
def statsEdge : Stats :=
  { throughput_bps := none, jitter_ms := some 5, loss_percent := some 1, packets := none }

/-- Probe trace where every probe succeeds and passes. -/
def probesAllGood : Nat → ExecOutcome := fun _ => .completed 0 (some statsGood)

/-- Probe trace: two accepted ramp probes, a rejected third ramp probe,
a confirm probe that times out, then a passing stepdown probe. -/
def probesConfirmFail : Nat → ExecOutcome := fun n =>
  match n with
  | 0 => .completed 0 (some statsGood)
  | 1 => .completed 0 (some statsGood)
  | 2 => .completed 0 (some statsBad)
  | 3 => .timedOut
  | _ => .completed 0 (some statsGood)

/-- Probe trace whose first probe exits with a nonzero code. -/
def probesExitOne : Nat → ExecOutcome := fun _ => .completed 1 none

/-- Probe trace whose first probe violates both the loss and the jitter
thresholds. -/
def probesBothBad : Nat → ExecOutcome := fun _ => .completed 0 (some statsBothBad)

/-! ### Output metadata merge -/

/-- A JSON-ish value as it appears in the output meta object. -/
inductive JVal where
  | s (v : String)
  | q (v : ℚ)
  | b (v : Bool)
deriving DecidableEq

/-- The fixed fields the controller writes into the output meta
object, in the order of the source dict literal. -/
def fixedMeta (direction timestamp : String) (cfg : Config) : List (String × JVal) :=
  [("tool", .s "iperf3"),
   ("protocol", .s "udp"),
   ("direction", .s direction),
   ("timestamp", .s timestamp),
   ("adaptive", .b true),
   ("loss_threshold", .q cfg.loss_threshold),
   ("jitter_threshold", .q cfg.jitter_threshold),
   ("drop_threshold", .q cfg.drop_threshold),
   ("start_bps", .q cfg.start_bps),
   ("step_bps", .q cfg.step_bps),
   ("max_bps", .q cfg.max_bps)]

/-- The output meta dict: the caller-supplied entries spread first,
then the fixed fields, so that a later binding for the same key
overrides an earlier one. -/
def buildMeta (meta : List (String × JVal)) (direction timestamp : String)
    (cfg : Config) : List (String × JVal) :=
  meta ++ fixedMeta direction timestamp cfg

/-- Key lookup under Python dict semantics: the last binding of a key
wins. -/
def dictLookup (l : List (String × JVal)) (k : String) : Option JVal :=
  (l.reverse.find? (fun p => p.1 == k)).map (fun p => p.2)

/-! ### Stop-reason vocabularies -/

/-- The three threshold stop reasons. -/
def thresholdReason (r : String) : Prop :=
  r = "loss_threshold" ∨ r = "jitter_threshold" ∨ r = "throughput_drop"

/-- The stop-reason vocabulary asserted by the specification, with the
failure kinds it names and the optional fallback suffixes on the three
threshold reasons. -/
def claimedReasonB (r : String) : Bool :=
  ["max_reached", "loss_threshold", "jitter_threshold", "throughput_drop",
   "timeout", "process_error", "parse_error"].contains r ||
  ["loss_threshold", "jitter_threshold", "throughput_drop"].any fun b =>
    r == b ++ "_fallback_confirmed" || r == b ++ "_fallback_stepdown"

/-- The stop-reason vocabulary the code actually produces: the initial
and threshold reasons, the `timeout` and `json_parse` failure kinds,
`exit_<rc>` for a nonzero exit code, and the two fallback suffixes on
threshold reasons. -/
def amendedReason (r : String) : Prop :=
  r = "max_reached" ∨ thresholdReason r ∨ r = "timeout" ∨ r = "json_parse" ∨
  (∃ rc : Int, rc ≠ 0 ∧ r = "exit_" ++ intToDecimal rc) ∨
  (∃ b, thresholdReason b ∧
    (r = b ++ "_fallback_confirmed" ∨ r = b ++ "_fallback_stepdown"))

/-! ### Auxiliary observations on sessions -/

/-- Number of steps with a given role. -/
def countRole (r : Role) (l : List StepRecord) : Nat :=
  (l.filter fun s => s.role == r).length

/-- A probe outcome that measures and passes the thresholds whatever
the current drop baseline is. -/
def alwaysAccepts (cfg : Config) (ex : ExecOutcome) : Prop :=
  ∃ stats, run_iperf ex = .data stats ∧ ∀ prev, stepOk cfg prev stats = true

/-- The targets the ramp visits from a given current target while every
probe is accepted, bounded by fuel: step forward while the target is at
most max plus the 1 bps epsilon. -/
def targetSeq (cur maxv step : ℚ) : Nat → List ℚ
  | 0 => []
  | fuel + 1 =>
    if cur ≤ maxv + 1 then cur :: targetSeq (cur + step) maxv step fuel else []

/-- The selection invariant: whenever a last accepted step is set, it
is a member of the step list and its accepted flag is true. -/
def SelInv (st : LoopState) : Prop :=
  ∀ s, st.last_ok = some s → s ∈ st.steps ∧ s.ok = true

/-! ### Lemmas on threshold evaluation -/

theorem evalChecks_fst (cfg : Config) (prev : Option ℚ) (stats : Stats) (r : String) :
    (evalChecks cfg prev stats r).1 = stepOk cfg prev stats := by
  obtain ⟨tp, jm, lp, pk⟩ := stats
  unfold evalChecks stepOk
  rcases lp with _ | l <;> rcases jm with _ | j <;> rcases tp with _ | t <;>
    rcases prev with _ | p <;> dsimp only <;> split_ifs <;> rfl

theorem evalChecks_true_reason (cfg : Config) (prev : Option ℚ) (stats : Stats) (r : String)
    (h : (evalChecks cfg prev stats r).1 = true) : (evalChecks cfg prev stats r).2 = r := by
  obtain ⟨tp, jm, lp, pk⟩ := stats
  unfold evalChecks at h ⊢
  rcases lp with _ | l <;> rcases jm with _ | j <;> rcases tp with _ | t <;>
    rcases prev with _ | p <;> dsimp only at h ⊢ <;> (try split_ifs at h ⊢) <;> simp_all

theorem evalChecks_false_reason (cfg : Config) (prev : Option ℚ) (stats : Stats) (r : String)
    (h : (evalChecks cfg prev stats r).1 = false) :
    thresholdReason (evalChecks cfg prev stats r).2 := by
  obtain ⟨tp, jm, lp, pk⟩ := stats
  unfold evalChecks at h ⊢
  unfold thresholdReason
  rcases lp with _ | l <;> rcases jm with _ | j <;> rcases tp with _ | t <;>
    rcases prev with _ | p <;> dsimp only at h ⊢ <;> (try split_ifs at h ⊢) <;> simp_all

/-! ### Lemmas on probe failure kinds -/

theorem run_iperf_error (ex : ExecOutcome) (e : String) (h : run_iperf ex = .error e) :
    e = "timeout" ∨ e = "json_parse" ∨ ∃ rc : Int, rc ≠ 0 ∧ e = "exit_" ++ intToDecimal rc := by
  cases ex with
  | timedOut =>
    simp only [run_iperf, ProbeResult.error.injEq] at h
    exact Or.inl h.symm
  | completed rc parsed =>
    by_cases hrc : rc = 0
    · subst hrc
      cases parsed with
      | none =>
        simp only [run_iperf, ne_eq, not_true_eq_false, reduceIte,
          ProbeResult.error.injEq] at h
        exact Or.inr (Or.inl h.symm)
      | some s =>
        simp only [run_iperf, ne_eq, not_true_eq_false, reduceIte] at h
        exact absurd h (by simp)
    · simp only [run_iperf, ne_eq, hrc, not_false_eq_true, reduceIte,
        ProbeResult.error.injEq] at h
      exact Or.inr (Or.inr ⟨rc, hrc, h.symm⟩)

/-! ### Branch equations of the stepdown attempt -/

theorem doStepdown_not_lt (cfg : Config) (probes : Nat → ExecOutcome) (st : LoopState)
    (lastOk : StepRecord)
    (hd : ¬ max cfg.start_bps (lastOk.target_bps - cfg.step_bps) < lastOk.target_bps) :
    doStepdown cfg probes st lastOk = st := by
  unfold doStepdown
  simp [hd]

theorem doStepdown_error (cfg : Config) (probes : Nat → ExecOutcome) (st : LoopState)
    (lastOk : StepRecord) (k : String)
    (hd : max cfg.start_bps (lastOk.target_bps - cfg.step_bps) < lastOk.target_bps)
    (hres : run_iperf (probes st.calls) = .error k) :
    doStepdown cfg probes st lastOk = { st with calls := st.calls + 1 } := by
  unfold doStepdown
  simp [hd, hres]

theorem doStepdown_accept (cfg : Config) (probes : Nat → ExecOutcome) (st : LoopState)
    (lastOk : StepRecord) (stats : Stats)
    (hd : max cfg.start_bps (lastOk.target_bps - cfg.step_bps) < lastOk.target_bps)
    (hres : run_iperf (probes st.calls) = .data stats)
    (hok : stepOk cfg st.prev_throughput stats = true) :
    doStepdown cfg probes st lastOk =
      { st with
        calls := st.calls + 1
        steps := st.steps ++
          [measuredStep (max cfg.start_bps (lastOk.target_bps - cfg.step_bps)) .fallback true stats]
        last_ok := some
          (measuredStep (max cfg.start_bps (lastOk.target_bps - cfg.step_bps)) .fallback true stats)
        stop_reason := st.stop_reason ++ "_fallback_stepdown" } := by
  unfold doStepdown
  simp [hd, hres, hok]

theorem doStepdown_reject (cfg : Config) (probes : Nat → ExecOutcome) (st : LoopState)
    (lastOk : StepRecord) (stats : Stats)
    (hd : max cfg.start_bps (lastOk.target_bps - cfg.step_bps) < lastOk.target_bps)
    (hres : run_iperf (probes st.calls) = .data stats)
    (hok : stepOk cfg st.prev_throughput stats = false) :
    doStepdown cfg probes st lastOk =
      { st with
        calls := st.calls + 1
        steps := st.steps ++
          [measuredStep (max cfg.start_bps (lastOk.target_bps - cfg.step_bps)) .fallback false stats] } := by
  unfold doStepdown
  simp [hd, hres, hok]

/-! ### Branch equations of the fallback protocol -/

theorem doFallback_error (cfg : Config) (probes : Nat → ExecOutcome) (st : LoopState)
    (lastOk : StepRecord) (k : String)
    (hres : run_iperf (probes st.calls) = .error k) :
    doFallback cfg probes st lastOk =
      doStepdown cfg probes { st with calls := st.calls + 1 } lastOk := by
  unfold doFallback
  simp [hres]

theorem doFallback_accept (cfg : Config) (probes : Nat → ExecOutcome) (st : LoopState)
    (lastOk : StepRecord) (stats : Stats)
    (hres : run_iperf (probes st.calls) = .data stats)
    (hok : stepOk cfg st.prev_throughput stats = true) :
    doFallback cfg probes st lastOk =
      { st with
        calls := st.calls + 1
        steps := st.steps ++ [measuredStep lastOk.target_bps .confirm true stats]
        last_ok := some (measuredStep lastOk.target_bps .confirm true stats)
        stop_reason := st.stop_reason ++ "_fallback_confirmed" } := by
  unfold doFallback
  simp [hres, hok]

theorem doFallback_reject (cfg : Config) (probes : Nat → ExecOutcome) (st : LoopState)
    (lastOk : StepRecord) (stats : Stats)
    (hres : run_iperf (probes st.calls) = .data stats)
    (hok : stepOk cfg st.prev_throughput stats = false) :
    doFallback cfg probes st lastOk =
      doStepdown cfg probes
        { st with
          calls := st.calls + 1
          steps := st.steps ++ [measuredStep lastOk.target_bps .confirm false stats] }
        lastOk := by
  unfold doFallback
  simp [hres, hok]

/-! ### Branch equations of one loop iteration -/

theorem rampIter_error (cfg : Config) (probes : Nat → ExecOutcome) (st : LoopState) (e : String)
    (hres : run_iperf (probes st.calls) = .error e) :
    rampIter cfg probes st =
      .done { st with
        calls := st.calls + 1
        steps := st.steps ++ [errorStep st.current e]
        stop_reason := e } := by
  unfold rampIter
  simp [hres]

theorem rampIter_accept (cfg : Config) (probes : Nat → ExecOutcome) (st : LoopState)
    (stats : Stats)
    (hres : run_iperf (probes st.calls) = .data stats)
    (hok : (evalChecks cfg st.prev_throughput stats st.stop_reason).1 = true) :
    rampIter cfg probes st =
      .cont { st with
        calls := st.calls + 1
        steps := st.steps ++ [measuredStep st.current .normal true stats]
        stop_reason := (evalChecks cfg st.prev_throughput stats st.stop_reason).2
        last_ok := some (measuredStep st.current .normal true stats)
        prev_throughput :=
          match stats.throughput_bps with
          | some t => some t
          | none => st.prev_throughput
        current := st.current + cfg.step_bps } := by
  unfold rampIter
  rw [hres]
  dsimp only
  rw [show (evalChecks cfg st.prev_throughput stats st.stop_reason).1 = true from hok]
  simp [hok]

theorem rampIter_reject_none (cfg : Config) (probes : Nat → ExecOutcome) (st : LoopState)
    (stats : Stats)
    (hres : run_iperf (probes st.calls) = .data stats)
    (hok : (evalChecks cfg st.prev_throughput stats st.stop_reason).1 = false)
    (hlast : st.last_ok = none) :
    rampIter cfg probes st =
      .done { st with
        calls := st.calls + 1
        steps := st.steps ++ [measuredStep st.current .normal false stats]
        stop_reason := (evalChecks cfg st.prev_throughput stats st.stop_reason).2 } := by
  unfold rampIter
  rw [hres]
  dsimp only
  simp [hok, hlast]

theorem rampIter_reject_fallback (cfg : Config) (probes : Nat → ExecOutcome) (st : LoopState)
    (stats : Stats) (lastOk : StepRecord)
    (hres : run_iperf (probes st.calls) = .data stats)
    (hok : (evalChecks cfg st.prev_throughput stats st.stop_reason).1 = false)
    (hlast : st.last_ok = some lastOk)
    (hfb : st.fallback_attempted = false) :
    rampIter cfg probes st =
      .done (doFallback cfg probes
        { st with
          calls := st.calls + 1
          steps := st.steps ++ [measuredStep st.current .normal false stats]
          stop_reason := (evalChecks cfg st.prev_throughput stats st.stop_reason).2
          fallback_attempted := true } lastOk) := by
  unfold rampIter
  rw [hres]
  dsimp only
  simp [hok, hlast, hfb]

theorem rampIter_reject_attempted (cfg : Config) (probes : Nat → ExecOutcome) (st : LoopState)
    (stats : Stats) (lastOk : StepRecord)
    (hres : run_iperf (probes st.calls) = .data stats)
    (hok : (evalChecks cfg st.prev_throughput stats st.stop_reason).1 = false)
    (hlast : st.last_ok = some lastOk)
    (hfb : st.fallback_attempted = true) :
    rampIter cfg probes st =
      .done { st with
        calls := st.calls + 1
        steps := st.steps ++ [measuredStep st.current .normal false stats]
        stop_reason := (evalChecks cfg st.prev_throughput stats st.stop_reason).2 } := by
  unfold rampIter
  rw [hres]
  dsimp only
  simp [hok, hlast, hfb]

/-! ### Unfolding equations of the loop -/

theorem runLoop_zero (cfg : Config) (probes : Nat → ExecOutcome) (st : LoopState) :
    runLoop cfg probes 0 st = st := rfl

theorem runLoop_stop (cfg : Config) (probes : Nat → ExecOutcome) (fuel : Nat) (st : LoopState)
    (h : ¬ st.current ≤ cfg.max_bps + 1) :
    runLoop cfg probes (fuel + 1) st = st := by
  unfold runLoop
  simp [h]

theorem runLoop_cont (cfg : Config) (probes : Nat → ExecOutcome) (fuel : Nat)
    (st st2 : LoopState) (h : st.current ≤ cfg.max_bps + 1)
    (hit : rampIter cfg probes st = .cont st2) :
    runLoop cfg probes (fuel + 1) st = runLoop cfg probes fuel st2 := by
  unfold runLoop
  simp [h, hit]
  cases fuel <;> rfl

theorem runLoop_done (cfg : Config) (probes : Nat → ExecOutcome) (fuel : Nat)
    (st st2 : LoopState) (h : st.current ≤ cfg.max_bps + 1)
    (hit : rampIter cfg probes st = .done st2) :
    runLoop cfg probes (fuel + 1) st = st2 := by
  unfold runLoop
  simp [h, hit]

/-! ### Derived shape lemmas -/

theorem countRole_append (r : Role) (a b : List StepRecord) :
    countRole r (a ++ b) = countRole r a + countRole r b := by
  unfold countRole
  rw [List.filter_append, List.length_append]

theorem doStepdown_tail (cfg : Config) (probes : Nat → ExecOutcome) (st : LoopState)
    (lastOk : StepRecord) :
    ∃ tl, (doStepdown cfg probes st lastOk).steps = st.steps ++ tl ∧
      (∀ s ∈ tl, s.role = .fallback) ∧ tl.length ≤ 1 ∧
      ((doStepdown cfg probes st lastOk).stop_reason = st.stop_reason ∨
        (doStepdown cfg probes st lastOk).stop_reason = st.stop_reason ++ "_fallback_stepdown") ∧
      ((doStepdown cfg probes st lastOk).last_ok = st.last_ok ∨
        ∃ s, (doStepdown cfg probes st lastOk).last_ok = some s ∧ s ∈ tl ∧ s.ok = true) := by
  by_cases hd : max cfg.start_bps (lastOk.target_bps - cfg.step_bps) < lastOk.target_bps
  · cases hres : run_iperf (probes st.calls) with
    | error k =>
      rw [doStepdown_error cfg probes st lastOk k hd hres]
      exact ⟨[], by simp⟩
    | data stats =>
      cases hok : stepOk cfg st.prev_throughput stats with
      | true =>
        rw [doStepdown_accept cfg probes st lastOk stats hd hres hok]
        refine ⟨[measuredStep (max cfg.start_bps (lastOk.target_bps - cfg.step_bps))
          .fallback true stats], by simp, ?_, by simp, Or.inr rfl, Or.inr ⟨_, rfl, by simp, rfl⟩⟩
        intro s hs
        simp only [List.mem_singleton] at hs
        simp [hs, measuredStep]
      | false =>
        rw [doStepdown_reject cfg probes st lastOk stats hd hres hok]
        refine ⟨[measuredStep (max cfg.start_bps (lastOk.target_bps - cfg.step_bps))
          .fallback false stats], by simp, ?_, by simp, Or.inl rfl, Or.inl rfl⟩
        intro s hs
        simp only [List.mem_singleton] at hs
        simp [hs, measuredStep]
  · rw [doStepdown_not_lt cfg probes st lastOk hd]
    exact ⟨[], by simp⟩

theorem countRole_le_length (r : Role) (l : List StepRecord) : countRole r l ≤ l.length :=
  List.length_filter_le _ _

theorem countRole_eq_zero (r : Role) (l : List StepRecord) (h : ∀ s ∈ l, s.role ≠ r) :
    countRole r l = 0 := by
  unfold countRole
  rw [List.length_eq_zero, List.filter_eq_nil_iff]
  intro s hs
  simpa using h s hs

theorem doFallback_tail (cfg : Config) (probes : Nat → ExecOutcome) (st : LoopState)
    (lastOk : StepRecord) :
    ∃ tl, (doFallback cfg probes st lastOk).steps = st.steps ++ tl ∧
      countRole .confirm tl ≤ 1 ∧ countRole .fallback tl ≤ 1 ∧
      (∀ s ∈ tl, s.role ≠ .normal) ∧
      ((doFallback cfg probes st lastOk).stop_reason = st.stop_reason ∨
        (doFallback cfg probes st lastOk).stop_reason = st.stop_reason ++ "_fallback_confirmed" ∨
        (doFallback cfg probes st lastOk).stop_reason = st.stop_reason ++ "_fallback_stepdown") ∧
      ((doFallback cfg probes st lastOk).last_ok = st.last_ok ∨
        ∃ s, (doFallback cfg probes st lastOk).last_ok = some s ∧ s ∈ tl ∧ s.ok = true) := by
  cases hres : run_iperf (probes st.calls) with
  | error k =>
    rw [doFallback_error cfg probes st lastOk k hres]
    obtain ⟨tl, h1, h2, h3, h4, h5⟩ :=
      doStepdown_tail cfg probes { st with calls := st.calls + 1 } lastOk
    have hc : countRole .confirm tl = 0 := by
      refine countRole_eq_zero _ _ fun s hs => ?_
      rw [h2 s hs]
      intro hcc
      exact Role.noConfusion hcc
    refine ⟨tl, h1, by omega, ?_, ?_, ?_, h5⟩
    · calc countRole .fallback tl ≤ tl.length := countRole_le_length _ _
        _ ≤ 1 := h3
    · intro s hs
      rw [h2 s hs]
      intro hcc
      exact Role.noConfusion hcc
    · rcases h4 with h | h
      · exact Or.inl h
      · exact Or.inr (Or.inr h)
  | data stats =>
    cases hok : stepOk cfg st.prev_throughput stats with
    | true =>
      rw [doFallback_accept cfg probes st lastOk stats hres hok]
      refine ⟨[measuredStep lastOk.target_bps .confirm true stats], by simp, ?_, ?_, ?_,
        Or.inr (Or.inl rfl), Or.inr ⟨_, rfl, by simp, rfl⟩⟩
      · unfold countRole
        simp [measuredStep]
      · unfold countRole
        simp [measuredStep]
      · intro s hs
        simp only [List.mem_singleton] at hs
        subst hs
        simp [measuredStep]
    | false =>
      rw [doFallback_reject cfg probes st lastOk stats hres hok]
      obtain ⟨tl, h1, h2, h3, h4, h5⟩ := doStepdown_tail cfg probes
        { st with calls := st.calls + 1
                  steps := st.steps ++ [measuredStep lastOk.target_bps .confirm false stats] }
        lastOk
      have hzc : countRole .confirm tl = 0 := by
        refine countRole_eq_zero _ _ fun s hs => ?_
        rw [h2 s hs]
        intro hcc
        exact Role.noConfusion hcc
      refine ⟨measuredStep lastOk.target_bps .confirm false stats :: tl, ?_, ?_, ?_, ?_, ?_, ?_⟩
      · rw [h1]
        simp
      · rw [show (measuredStep lastOk.target_bps .confirm false stats :: tl) =
          [measuredStep lastOk.target_bps .confirm false stats] ++ tl from rfl,
          countRole_append, hzc]
        unfold countRole
        simp [measuredStep]
      · rw [show (measuredStep lastOk.target_bps .confirm false stats :: tl) =
          [measuredStep lastOk.target_bps .confirm false stats] ++ tl from rfl,
          countRole_append]
        have h0 : countRole .fallback [measuredStep lastOk.target_bps .confirm false stats] = 0 := by
          unfold countRole
          simp [measuredStep]
        have hfl : countRole .fallback tl ≤ tl.length := countRole_le_length _ _
        omega
      · intro s hs
        rcases List.mem_cons.1 hs with h | h
        · subst h
          simp [measuredStep]
        · rw [h2 s h]
          intro hcc
          exact Role.noConfusion hcc
      · rcases h4 with h | h
        · exact Or.inl h
        · exact Or.inr (Or.inr h)
      · rcases h5 with h | h
        · exact Or.inl h
        · obtain ⟨s, hs1, hs2, hs3⟩ := h
          exact Or.inr ⟨s, hs1, List.mem_cons_of_mem _ hs2, hs3⟩

/-! ### Reason vocabulary helpers -/

theorem amended_of_threshold (r : String) (h : thresholdReason r) : amendedReason r :=
  Or.inr (Or.inl h)

theorem amended_confirmed (b : String) (h : thresholdReason b) :
    amendedReason (b ++ "_fallback_confirmed") :=
  Or.inr (Or.inr (Or.inr (Or.inr (Or.inr ⟨b, h, Or.inl rfl⟩))))

theorem amended_stepdown (b : String) (h : thresholdReason b) :
    amendedReason (b ++ "_fallback_stepdown") :=
  Or.inr (Or.inr (Or.inr (Or.inr (Or.inr ⟨b, h, Or.inr rfl⟩))))

theorem amended_of_probe_error (e : String) (ex : ExecOutcome)
    (h : run_iperf ex = .error e) : amendedReason e := by
  rcases run_iperf_error ex e h with h1 | h1 | h1
  · exact Or.inr (Or.inr (Or.inl h1))
  · exact Or.inr (Or.inr (Or.inr (Or.inl h1)))
  · exact Or.inr (Or.inr (Or.inr (Or.inr (Or.inl h1))))

/-! ### Inversion of a continuing iteration -/

theorem rampIter_cont_inv (cfg : Config) (probes : Nat → ExecOutcome) (st st2 : LoopState)
    (hit : rampIter cfg probes st = .cont st2) :
    ∃ stats, run_iperf (probes st.calls) = .data stats ∧
      (evalChecks cfg st.prev_throughput stats st.stop_reason).1 = true ∧
      st2 = { st with
        calls := st.calls + 1
        steps := st.steps ++ [measuredStep st.current .normal true stats]
        last_ok := some (measuredStep st.current .normal true stats)
        prev_throughput :=
          match stats.throughput_bps with
          | some t => some t
          | none => st.prev_throughput
        current := st.current + cfg.step_bps } := by
  cases hres : run_iperf (probes st.calls) with
  | error k =>
    rw [rampIter_error cfg probes st k hres] at hit
    exact absurd hit (by simp)
  | data stats =>
    cases hok : (evalChecks cfg st.prev_throughput stats st.stop_reason).1 with
    | true =>
      rw [rampIter_accept cfg probes st stats hres hok] at hit
      injection hit with h
      refine ⟨stats, rfl, hok, ?_⟩
      rw [← h, evalChecks_true_reason cfg st.prev_throughput stats st.stop_reason hok]
    | false =>
      rcases hlast : st.last_ok with _ | lastOk
      · rw [rampIter_reject_none cfg probes st stats hres hok hlast] at hit
        exact absurd hit (by simp)
      · cases hfb : st.fallback_attempted with
        | false =>
          rw [rampIter_reject_fallback cfg probes st stats lastOk hres hok hlast hfb] at hit
          exact absurd hit (by simp)
        | true =>
          rw [rampIter_reject_attempted cfg probes st stats lastOk hres hok hlast hfb] at hit
          exact absurd hit (by simp)

/-! ### The per-iteration tail lemma -/

theorem rampIter_tail (cfg : Config) (probes : Nat → ExecOutcome) (st : LoopState) :
    ∃ tl, (rampIter cfg probes st).state.steps = st.steps ++ tl ∧
      countRole .confirm tl ≤ 1 ∧ countRole .fallback tl ≤ 1 ∧
      ((rampIter cfg probes st).state.last_ok = st.last_ok ∨
        ∃ s, (rampIter cfg probes st).state.last_ok = some s ∧ s ∈ tl ∧ s.ok = true) ∧
      (amendedReason st.stop_reason → amendedReason (rampIter cfg probes st).state.stop_reason) := by
  cases hres : run_iperf (probes st.calls) with
  | error k =>
    rw [rampIter_error cfg probes st k hres]
    refine ⟨[errorStep st.current k], by simp [IterResult.state], ?_, ?_, Or.inl rfl,
      fun _ => amended_of_probe_error k (probes st.calls) hres⟩
    · refine le_of_eq_of_le (countRole_eq_zero _ _ ?_) (by omega)
      intro s hs
      simp only [List.mem_singleton] at hs
      subst hs
      simp [errorStep]
    · refine le_of_eq_of_le (countRole_eq_zero _ _ ?_) (by omega)
      intro s hs
      simp only [List.mem_singleton] at hs
      subst hs
      simp [errorStep]
  | data stats =>
    cases hok : (evalChecks cfg st.prev_throughput stats st.stop_reason).1 with
    | true =>
      rw [rampIter_accept cfg probes st stats hres hok]
      refine ⟨[measuredStep st.current .normal true stats], by simp [IterResult.state], ?_, ?_,
        Or.inr ⟨_, rfl, by simp, rfl⟩, ?_⟩
      · refine le_of_eq_of_le (countRole_eq_zero _ _ ?_) (by omega)
        intro s hs
        simp only [List.mem_singleton] at hs
        subst hs
        simp [measuredStep]
      · refine le_of_eq_of_le (countRole_eq_zero _ _ ?_) (by omega)
        intro s hs
        simp only [List.mem_singleton] at hs
        subst hs
        simp [measuredStep]
      · intro hv
        simpa [IterResult.state,
          evalChecks_true_reason cfg st.prev_throughput stats st.stop_reason hok] using hv
    | false =>
      have hthr := evalChecks_false_reason cfg st.prev_throughput stats st.stop_reason hok
      rcases hlast : st.last_ok with _ | lastOk
      · rw [rampIter_reject_none cfg probes st stats hres hok hlast]
        refine ⟨[measuredStep st.current .normal false stats], by simp [IterResult.state], ?_, ?_,
          Or.inl (by simp [IterResult.state, hlast]), fun _ => amended_of_threshold _ hthr⟩
        · refine le_of_eq_of_le (countRole_eq_zero _ _ ?_) (by omega)
          intro s hs
          simp only [List.mem_singleton] at hs
          subst hs
          simp [measuredStep]
        · refine le_of_eq_of_le (countRole_eq_zero _ _ ?_) (by omega)
          intro s hs
          simp only [List.mem_singleton] at hs
          subst hs
          simp [measuredStep]
      · cases hfb : st.fallback_attempted with
        | true =>
          rw [rampIter_reject_attempted cfg probes st stats lastOk hres hok hlast hfb]
          refine ⟨[measuredStep st.current .normal false stats], by simp [IterResult.state], ?_, ?_,
            Or.inl (by simp [IterResult.state, hlast]), fun _ => amended_of_threshold _ hthr⟩
          · refine le_of_eq_of_le (countRole_eq_zero _ _ ?_) (by omega)
            intro s hs
            simp only [List.mem_singleton] at hs
            subst hs
            simp [measuredStep]
          · refine le_of_eq_of_le (countRole_eq_zero _ _ ?_) (by omega)
            intro s hs
            simp only [List.mem_singleton] at hs
            subst hs
            simp [measuredStep]
        | false =>
          rw [rampIter_reject_fallback cfg probes st stats lastOk hres hok hlast hfb]
          obtain ⟨tlF, h1, h2, h3, h4, h5, h6⟩ := doFallback_tail cfg probes
            { st with
              calls := st.calls + 1
              steps := st.steps ++ [measuredStep st.current .normal false stats]
              stop_reason := (evalChecks cfg st.prev_throughput stats st.stop_reason).2
              fallback_attempted := true } lastOk
          refine ⟨measuredStep st.current .normal false stats :: tlF, ?_, ?_, ?_, ?_, ?_⟩
          · rw [IterResult.state, h1]
            simp
          · rw [show (measuredStep st.current .normal false stats :: tlF) =
              [measuredStep st.current .normal false stats] ++ tlF from rfl, countRole_append]
            have h0 : countRole .confirm [measuredStep st.current .normal false stats] = 0 := by
              unfold countRole
              simp [measuredStep]
            omega
          · rw [show (measuredStep st.current .normal false stats :: tlF) =
              [measuredStep st.current .normal false stats] ++ tlF from rfl, countRole_append]
            have h0 : countRole .fallback [measuredStep st.current .normal false stats] = 0 := by
              unfold countRole
              simp [measuredStep]
            omega
          · rcases h6 with h | h
            · exact Or.inl (h.trans hlast)
            · obtain ⟨s, hs1, hs2, hs3⟩ := h
              exact Or.inr ⟨s, hs1, List.mem_cons_of_mem _ hs2, hs3⟩
          · intro _
            rw [IterResult.state]
            rcases h5 with h | h | h <;> rw [h]
            · exact amended_of_threshold _ hthr
            · exact amended_confirmed _ hthr
            · exact amended_stepdown _ hthr

/-! ### The whole-loop tail lemma -/

theorem runLoop_tail (cfg : Config) (probes : Nat → ExecOutcome) :
    ∀ fuel st, ∃ tl, (runLoop cfg probes fuel st).steps = st.steps ++ tl ∧
      countRole .confirm tl ≤ 1 ∧ countRole .fallback tl ≤ 1 ∧
      ((runLoop cfg probes fuel st).last_ok = st.last_ok ∨
        ∃ s, (runLoop cfg probes fuel st).last_ok = some s ∧ s ∈ tl ∧ s.ok = true) ∧
      (amendedReason st.stop_reason → amendedReason (runLoop cfg probes fuel st).stop_reason) := by
  intro fuel
  induction fuel with
  | zero =>
    intro st
    exact ⟨[], by simp [runLoop_zero], by simp [countRole], by simp [countRole],
      Or.inl rfl, fun h => h⟩
  | succ n ih =>
    intro st
    by_cases hb : st.current ≤ cfg.max_bps + 1
    · cases hit : rampIter cfg probes st with
      | cont st2 =>
        rw [runLoop_cont cfg probes n st st2 hb hit]
        obtain ⟨stats, hres, hok, hst2⟩ := rampIter_cont_inv cfg probes st st2 hit
        obtain ⟨tl2, g1, g2, g3, g4, g5⟩ := ih st2
        refine ⟨measuredStep st.current .normal true stats :: tl2, ?_, ?_, ?_, ?_, ?_⟩
        · rw [g1, hst2]
          simp
        · rw [show (measuredStep st.current .normal true stats :: tl2) =
            [measuredStep st.current .normal true stats] ++ tl2 from rfl, countRole_append]
          have h0 : countRole .confirm [measuredStep st.current .normal true stats] = 0 := by
            unfold countRole
            simp [measuredStep]
          omega
        · rw [show (measuredStep st.current .normal true stats :: tl2) =
            [measuredStep st.current .normal true stats] ++ tl2 from rfl, countRole_append]
          have h0 : countRole .fallback [measuredStep st.current .normal true stats] = 0 := by
            unfold countRole
            simp [measuredStep]
          omega
        · rcases g4 with h | h
          · right
            refine ⟨measuredStep st.current .normal true stats, ?_, List.mem_cons_self _ _, rfl⟩
            rw [h, hst2]
          · obtain ⟨s, a1, a2, a3⟩ := h
            exact Or.inr ⟨s, a1, List.mem_cons_of_mem _ a2, a3⟩
        · intro hv
          apply g5
          rw [hst2]
          exact hv
      | done st2 =>
        rw [runLoop_done cfg probes n st st2 hb hit]
        have hshape := rampIter_tail cfg probes st
        rw [hit] at hshape
        simpa only [IterResult.state] using hshape
    · rw [runLoop_stop cfg probes n st hb]
      exact ⟨[], by simp, by simp [countRole], by simp [countRole], Or.inl rfl, fun h => h⟩

/-! ### Claim theorems -/

/-- C8: for every session, the final selection is either absent or is a
step record present in the session step list with accepted flag true
(so in particular it agrees in target and role with an accepted
recorded step). -/
theorem C8_selected_in_steps (cfg : Config) (probes : Nat → ExecOutcome) (fuel : Nat) :
    (runSession cfg probes fuel).last_ok = none ∨
    ∃ s, (runSession cfg probes fuel).last_ok = some s ∧
      s ∈ (runSession cfg probes fuel).steps ∧ s.ok = true := by
  obtain ⟨tl, h1, _, _, h4, _⟩ := runLoop_tail cfg probes fuel (initState cfg)
  rcases h4 with h | h
  · left
    rw [runSession, h]
    rfl
  · obtain ⟨s, a1, a2, a3⟩ := h
    refine Or.inr ⟨s, a1, ?_, a3⟩
    rw [runSession, h1]
    exact List.mem_append_right _ a2

/-- C4 counterexample: a probe whose process exits with code 1 makes
the session stop with reason `exit_1`, a string outside the vocabulary
the specification asserts (which names `process_error` instead). -/
theorem C4_counterexample :
    (runSession cfgEx probesExitOne 10).stop_reason = "exit_1" ∧
    claimedReasonB "exit_1" = false := by
  constructor <;> decide

/-- C4 (amended): every session stop reason is `max_reached`, one of
the three threshold reasons, `timeout`, `json_parse`, `exit_<rc>` for
some nonzero exit code rc, or a threshold reason carrying a
`_fallback_confirmed` or `_fallback_stepdown` suffix; no other string
is produced. -/
theorem C4_amended_stop_reason (cfg : Config) (probes : Nat → ExecOutcome) (fuel : Nat) :
    amendedReason (runSession cfg probes fuel).stop_reason := by
  obtain ⟨tl, _, _, _, _, h5⟩ := runLoop_tail cfg probes fuel (initState cfg)
  exact h5 (Or.inl rfl)

/-- C2: the fallback protocol is bounded and one-shot: at most one
confirm-role and at most one fallback-role step ever appear in a
session; an accepted confirm at the last accepted target becomes the
selection, appends the confirmation suffix and ends the protocol with
no stepdown probe; a rejected confirm is recorded and is followed by
the single stepdown attempt at `max(start, last - step)`, issued only
when that target is strictly below the last accepted target, whose
acceptance becomes the selection with the step-down suffix; and on the
first threshold violation after an accepted step the loop runs exactly
this protocol and terminates with its result, issuing no further
probes. -/
theorem C2_fallback_protocol :
    (∀ cfg probes fuel,
      countRole .confirm (runSession cfg probes fuel).steps ≤ 1 ∧
      countRole .fallback (runSession cfg probes fuel).steps ≤ 1) ∧
    (∀ cfg probes (st : LoopState) lastOk stats,
      run_iperf (probes st.calls) = .data stats →
      stepOk cfg st.prev_throughput stats = true →
      doFallback cfg probes st lastOk =
        { st with
          calls := st.calls + 1
          steps := st.steps ++ [measuredStep lastOk.target_bps .confirm true stats]
          last_ok := some (measuredStep lastOk.target_bps .confirm true stats)
          stop_reason := st.stop_reason ++ "_fallback_confirmed" }) ∧
    (∀ cfg probes (st : LoopState) lastOk stats,
      run_iperf (probes st.calls) = .data stats →
      stepOk cfg st.prev_throughput stats = false →
      doFallback cfg probes st lastOk =
        doStepdown cfg probes
          { st with
            calls := st.calls + 1
            steps := st.steps ++ [measuredStep lastOk.target_bps .confirm false stats] }
          lastOk) ∧
    (∀ cfg probes (st : LoopState) lastOk,
      ¬ max cfg.start_bps (lastOk.target_bps - cfg.step_bps) < lastOk.target_bps →
      doStepdown cfg probes st lastOk = st) ∧
    (∀ cfg probes (st : LoopState) lastOk stats,
      max cfg.start_bps (lastOk.target_bps - cfg.step_bps) < lastOk.target_bps →
      run_iperf (probes st.calls) = .data stats →
      stepOk cfg st.prev_throughput stats = true →
      doStepdown cfg probes st lastOk =
        { st with
          calls := st.calls + 1
          steps := st.steps ++
            [measuredStep (max cfg.start_bps (lastOk.target_bps - cfg.step_bps))
              .fallback true stats]
          last_ok := some
            (measuredStep (max cfg.start_bps (lastOk.target_bps - cfg.step_bps))
              .fallback true stats)
          stop_reason := st.stop_reason ++ "_fallback_stepdown" }) ∧
    (∀ cfg probes (st : LoopState) stats lastOk fuel,
      st.current ≤ cfg.max_bps + 1 →
      run_iperf (probes st.calls) = .data stats →
      (evalChecks cfg st.prev_throughput stats st.stop_reason).1 = false →
      st.last_ok = some lastOk →
      st.fallback_attempted = false →
      runLoop cfg probes (fuel + 1) st =
        doFallback cfg probes
          { st with
            calls := st.calls + 1
            steps := st.steps ++ [measuredStep st.current .normal false stats]
            stop_reason := (evalChecks cfg st.prev_throughput stats st.stop_reason).2
            fallback_attempted := true }
          lastOk) := by
  refine ⟨?_, ?_, ?_, ?_, ?_, ?_⟩
  · intro cfg probes fuel
    obtain ⟨tl, h1, h2, h3, _, _⟩ := runLoop_tail cfg probes fuel (initState cfg)
    have hs : (runSession cfg probes fuel).steps = tl := by
      rw [runSession, h1]
      rfl
    rw [hs]
    exact ⟨h2, h3⟩
  · intro cfg probes st lastOk stats hres hok
    exact doFallback_accept cfg probes st lastOk stats hres hok
  · intro cfg probes st lastOk stats hres hok
    exact doFallback_reject cfg probes st lastOk stats hres hok
  · intro cfg probes st lastOk hd
    exact doStepdown_not_lt cfg probes st lastOk hd
  · intro cfg probes st lastOk stats hd hres hok
    exact doStepdown_accept cfg probes st lastOk stats hd hres hok
  · intro cfg probes st stats lastOk fuel hb hres hok hlast hfb
    exact runLoop_done cfg probes fuel st _ hb
      (rampIter_reject_fallback cfg probes st stats lastOk hres hok hlast hfb)

/-- Witness for C2: at a concrete state whose last accepted step sits
at 4 Gbps, an accepted confirm probe yields exactly the confirmed
record, the confirmed selection and the suffixed stop reason. -/
theorem C2_fallback_protocol_witness :
    doFallback cfgEx probesAllGood (initState cfgEx)
        (measuredStep 4000000000 .normal true statsGood) =
      { initState cfgEx with
        calls := 1
        steps := [measuredStep 4000000000 .confirm true statsGood]
        last_ok := some (measuredStep 4000000000 .confirm true statsGood)
        stop_reason := "max_reached_fallback_confirmed" } := by
  have h := C2_fallback_protocol.2.1 cfgEx probesAllGood (initState cfgEx)
    (measuredStep 4000000000 .normal true statsGood) statsGood rfl (by decide)
  rw [h]
  decide

/-- C1 counterexample: in a session whose fourth probe (the confirm
re-probe) times out, the controller does not stop: a fifth probe (the
stepdown) is issued and the final stop reason is the threshold reason
with the stepdown suffix, not the failure kind `timeout`. -/
theorem C1_counterexample :
    run_iperf (probesConfirmFail 3) = .error "timeout" ∧
    (runSession cfgEx probesConfirmFail 10).calls = 5 ∧
    (runSession cfgEx probesConfirmFail 10).stop_reason = "loss_threshold_fallback_stepdown" := by
  refine ⟨rfl, ?_, ?_⟩ <;> decide

/-- C1 (amended): a failed probe during the normal ramp is immediately
fatal — the loop exits at once with exactly one error record appended,
the stop reason set to the failure kind and the selection left at the
last accepted step; but a failed confirm probe is not fatal — it is not
recorded, the stop reason keeps the threshold reason, and the
controller proceeds to the stepdown attempt; and a failed stepdown
probe is not recorded and changes neither stop reason nor selection. -/
theorem C1_failed_probe :
    (∀ cfg probes (st : LoopState) fuel e,
      st.current ≤ cfg.max_bps + 1 →
      run_iperf (probes st.calls) = .error e →
      runLoop cfg probes (fuel + 1) st =
        { st with
          calls := st.calls + 1
          steps := st.steps ++ [errorStep st.current e]
          stop_reason := e }) ∧
    (∀ cfg probes (st : LoopState) lastOk e,
      run_iperf (probes st.calls) = .error e →
      doFallback cfg probes st lastOk =
        doStepdown cfg probes { st with calls := st.calls + 1 } lastOk) ∧
    (∀ cfg probes (st : LoopState) lastOk e,
      run_iperf (probes st.calls) = .error e →
      (doStepdown cfg probes st lastOk).steps = st.steps ∧
      (doStepdown cfg probes st lastOk).stop_reason = st.stop_reason ∧
      (doStepdown cfg probes st lastOk).last_ok = st.last_ok) := by
  refine ⟨?_, ?_, ?_⟩
  · intro cfg probes st fuel e hb hres
    exact runLoop_done cfg probes fuel st _ hb (rampIter_error cfg probes st e hres)
  · intro cfg probes st lastOk e hres
    exact doFallback_error cfg probes st lastOk e hres
  · intro cfg probes st lastOk e hres
    by_cases hd : max cfg.start_bps (lastOk.target_bps - cfg.step_bps) < lastOk.target_bps
    · rw [doStepdown_error cfg probes st lastOk e hd hres]
      exact ⟨rfl, rfl, rfl⟩
    · rw [doStepdown_not_lt cfg probes st lastOk hd]
      exact ⟨rfl, rfl, rfl⟩

/-- Witness for C1: the very first probe of a session timing out ends
the session at once with stop reason `timeout`, a single error record
and no selection. -/
theorem C1_failed_probe_witness :
    runLoop cfgEx (fun _ => .timedOut) 10 (initState cfgEx) =
      { initState cfgEx with
        calls := 1
        steps := [errorStep 2000000000 "timeout"]
        stop_reason := "timeout" } := by
  have h := C1_failed_probe.1 cfgEx (fun _ => .timedOut) (initState cfgEx) 9 "timeout"
    (by decide) rfl
  rw [h]
  decide

/-- C3 counterexample: in a session whose confirm probe times out, five
probes are issued but only four step records exist — the failed confirm
probe contributes no record to the step list. -/
theorem C3_counterexample :
    (runSession cfgEx probesConfirmFail 10).calls = 5 ∧
    (runSession cfgEx probesConfirmFail 10).steps.length = 4 := by
  constructor <;> decide

/-- C3 (amended): the step list is append-only (never reordered,
mutated or removed); every normal-ramp probe, failed or measured,
appends exactly one record in issuance order; a measured confirm or
stepdown probe appends exactly one record; but a failed confirm or
stepdown probe appends no record at all even though it was issued. -/
theorem C3_step_records :
    (∀ cfg probes fuel (st : LoopState),
      ∃ tl, (runLoop cfg probes fuel st).steps = st.steps ++ tl) ∧
    (∀ cfg probes (st : LoopState) e,
      run_iperf (probes st.calls) = .error e →
      (rampIter cfg probes st).state.steps = st.steps ++ [errorStep st.current e]) ∧
    (∀ cfg probes (st : LoopState) stats,
      run_iperf (probes st.calls) = .data stats →
      ∃ tl, (rampIter cfg probes st).state.steps =
        st.steps ++ measuredStep st.current .normal
          (evalChecks cfg st.prev_throughput stats st.stop_reason).1 stats :: tl) ∧
    (∀ cfg probes (st : LoopState) lastOk stats,
      run_iperf (probes st.calls) = .data stats →
      ∃ tl, (doFallback cfg probes st lastOk).steps =
        st.steps ++ measuredStep lastOk.target_bps .confirm
          (stepOk cfg st.prev_throughput stats) stats :: tl) ∧
    (∀ cfg probes (st : LoopState) lastOk e,
      run_iperf (probes st.calls) = .error e →
      doFallback cfg probes st lastOk =
        doStepdown cfg probes { st with calls := st.calls + 1 } lastOk) ∧
    (∀ cfg probes (st : LoopState) lastOk e,
      max cfg.start_bps (lastOk.target_bps - cfg.step_bps) < lastOk.target_bps →
      run_iperf (probes st.calls) = .error e →
      (doStepdown cfg probes st lastOk).steps = st.steps ∧
      (doStepdown cfg probes st lastOk).calls = st.calls + 1) ∧
    (∀ cfg probes (st : LoopState) lastOk stats,
      max cfg.start_bps (lastOk.target_bps - cfg.step_bps) < lastOk.target_bps →
      run_iperf (probes st.calls) = .data stats →
      (doStepdown cfg probes st lastOk).steps =
        st.steps ++ [measuredStep (max cfg.start_bps (lastOk.target_bps - cfg.step_bps))
          .fallback (stepOk cfg st.prev_throughput stats) stats]) := by
  refine ⟨?_, ?_, ?_, ?_, ?_, ?_, ?_⟩
  · intro cfg probes fuel st
    obtain ⟨tl, h1, _⟩ := runLoop_tail cfg probes fuel st
    exact ⟨tl, h1⟩
  · intro cfg probes st e hres
    rw [rampIter_error cfg probes st e hres]
    rfl
  · intro cfg probes st stats hres
    cases hok : (evalChecks cfg st.prev_throughput stats st.stop_reason).1 with
    | true =>
      rw [rampIter_accept cfg probes st stats hres hok]
      exact ⟨[], rfl⟩
    | false =>
      rcases hlast : st.last_ok with _ | lastOk
      · rw [rampIter_reject_none cfg probes st stats hres hok hlast]
        exact ⟨[], rfl⟩
      · cases hfb : st.fallback_attempted with
        | true =>
          rw [rampIter_reject_attempted cfg probes st stats lastOk hres hok hlast hfb]
          exact ⟨[], rfl⟩
        | false =>
          rw [rampIter_reject_fallback cfg probes st stats lastOk hres hok hlast hfb]
          obtain ⟨tlF, h1, _⟩ := doFallback_tail cfg probes
            { st with
              calls := st.calls + 1
              steps := st.steps ++ [measuredStep st.current .normal false stats]
              stop_reason := (evalChecks cfg st.prev_throughput stats st.stop_reason).2
              fallback_attempted := true } lastOk
          refine ⟨tlF, ?_⟩
          rw [IterResult.state, h1]
          simp
  · intro cfg probes st lastOk stats hres
    cases hok : stepOk cfg st.prev_throughput stats with
    | true =>
      rw [doFallback_accept cfg probes st lastOk stats hres hok]
      exact ⟨[], rfl⟩
    | false =>
      rw [doFallback_reject cfg probes st lastOk stats hres hok]
      obtain ⟨tlS, h1, _⟩ := doStepdown_tail cfg probes
        { st with
          calls := st.calls + 1
          steps := st.steps ++ [measuredStep lastOk.target_bps .confirm false stats] } lastOk
      refine ⟨tlS, ?_⟩
      rw [h1]
      simp
  · intro cfg probes st lastOk e hres
    exact doFallback_error cfg probes st lastOk e hres
  · intro cfg probes st lastOk e hd hres
    rw [doStepdown_error cfg probes st lastOk e hd hres]
    exact ⟨rfl, rfl⟩
  · intro cfg probes st lastOk stats hd hres
    cases hok : stepOk cfg st.prev_throughput stats with
    | true =>
      rw [doStepdown_accept cfg probes st lastOk stats hd hres hok]
    | false =>
      rw [doStepdown_reject cfg probes st lastOk stats hd hres hok]

/-- Witness for C3: a measured first ramp probe appends exactly its own
record to the empty step list. -/
theorem C3_step_records_witness :
    ∃ tl, (rampIter cfgEx probesAllGood (initState cfgEx)).state.steps =
      measuredStep 2000000000 .normal true statsGood :: tl := by
  obtain ⟨tl, h⟩ := C3_step_records.2.2.1 cfgEx probesAllGood (initState cfgEx) statsGood rfl
  refine ⟨tl, ?_⟩
  rw [h]
  rfl

/-- C5 counterexample: a first ramp probe measuring loss 2 percent and
jitter 10 ms — both above their thresholds — stops the session with
reason `jitter_threshold`, not the `loss_threshold` the specification
predicts for the first check in evaluation order. -/
theorem C5_counterexample :
    (runSession cfgEx probesBothBad 10).stop_reason = "jitter_threshold" ∧
    (runSession cfgEx probesBothBad 10).stop_reason ≠ "loss_threshold" := by
  constructor <;> decide

/-- C5 (amended): the three checks run in order loss, jitter,
throughput-drop as sequential non-exclusive branches, so the recorded
stop reason of the initiating violation is the LAST check that
triggers: a triggering drop check wins over everything, a triggering
jitter check wins unless the drop check triggers, and the loss reason
survives only when it is the sole trigger. -/
theorem C5_last_check_wins (cfg : Config) (prev : Option ℚ) (stats : Stats) (r0 : String) :
    ((∃ p t, prev = some p ∧ stats.throughput_bps = some t ∧
        t < p * (1 - cfg.drop_threshold / 100)) →
      (evalChecks cfg prev stats r0).2 = "throughput_drop") ∧
    ((¬ ∃ p t, prev = some p ∧ stats.throughput_bps = some t ∧
        t < p * (1 - cfg.drop_threshold / 100)) →
      (∃ j, stats.jitter_ms = some j ∧ cfg.jitter_threshold < j) →
      (evalChecks cfg prev stats r0).2 = "jitter_threshold") ∧
    ((¬ ∃ p t, prev = some p ∧ stats.throughput_bps = some t ∧
        t < p * (1 - cfg.drop_threshold / 100)) →
      (¬ ∃ j, stats.jitter_ms = some j ∧ cfg.jitter_threshold < j) →
      (∃ l, stats.loss_percent = some l ∧ cfg.loss_threshold < l) →
      (evalChecks cfg prev stats r0).2 = "loss_threshold") := by
  obtain ⟨tp, jm, lp, pk⟩ := stats
  unfold evalChecks
  rcases lp with _ | l <;> rcases jm with _ | j <;> rcases tp with _ | t <;>
    rcases prev with _ | p <;> dsimp only <;> (try split_ifs) <;>
      constructor <;> (try constructor) <;> intro hs <;> (try intro hs2) <;>
        (try intro hs3) <;> (try simp_all) <;> exfalso <;> linarith

/-- Witness for C5: with no drop baseline and a measurement violating
both the loss and the jitter thresholds, the recorded reason is
`jitter_threshold`. -/
theorem C5_last_check_wins_witness :
    (evalChecks cfgEx none statsBothBad "max_reached").2 = "jitter_threshold" :=
  (C5_last_check_wins cfgEx none statsBothBad "max_reached").2.1
    (by rintro ⟨p, t, hp, _⟩; cases hp)
    ⟨10, rfl, by decide⟩

/-- C6: a measured step is accepted exactly when every present metric
passes its inclusive bound — a value equal to its threshold passes, a
value strictly above rejects, and an absent loss, jitter or throughput
(or absent drop baseline) skips that check entirely; the ramp check
computes the same acceptance flag; and on an accepted ramp step the
drop baseline becomes the measured throughput when present and is left
unchanged when absent. -/
theorem C6_inclusive_bounds (cfg : Config) :
    (∀ prev stats, stepOk cfg prev stats = true ↔
      ((∀ l, stats.loss_percent = some l → l ≤ cfg.loss_threshold) ∧
       (∀ j, stats.jitter_ms = some j → j ≤ cfg.jitter_threshold) ∧
       (∀ p t, prev = some p → stats.throughput_bps = some t →
         p * (1 - cfg.drop_threshold / 100) ≤ t))) ∧
    (∀ prev stats r0, (evalChecks cfg prev stats r0).1 = stepOk cfg prev stats) ∧
    (∀ probes (st : LoopState) stats st2,
      run_iperf (probes st.calls) = .data stats →
      rampIter cfg probes st = .cont st2 →
      ((∀ t, stats.throughput_bps = some t → st2.prev_throughput = some t) ∧
       (stats.throughput_bps = none → st2.prev_throughput = st.prev_throughput))) := by
  refine ⟨?_, ?_, ?_⟩
  · intro prev stats
    obtain ⟨tp, jm, lp, pk⟩ := stats
    unfold stepOk
    rcases lp with _ | l <;> rcases jm with _ | j <;> rcases tp with _ | t <;>
      rcases prev with _ | p <;> dsimp only <;> (try split_ifs) <;>
        constructor <;> intro h <;>
          first
          | (refine ⟨?_, ?_, ?_⟩ <;> intro ⟨⟩ <;> intros <;> simp_all <;> linarith)
          | (simp_all; done)
          | (obtain ⟨h1, h2, h3⟩ := h; exfalso;
             first
             | (have hx := h1 _ rfl; linarith)
             | (have hx := h2 _ rfl; linarith)
             | (have hx := h3 _ _ rfl rfl; linarith))
  · intro prev stats r0
    exact evalChecks_fst cfg prev stats r0
  · intro probes st stats st2 hres hit
    obtain ⟨stats2, hres2, hok2, hst2⟩ := rampIter_cont_inv cfg probes st st2 hit
    rw [hres] at hres2
    injection hres2 with he
    subst he
    subst hst2
    constructor
    · intro t ht
      simp [ht]
    · intro ht
      simp [ht]

/-- Witness for C6: a measurement lying exactly on both inclusive
thresholds (loss 1 percent, jitter 5 ms) is accepted, with the absent
throughput skipping the drop check. -/
theorem C6_inclusive_bounds_witness :
    stepOk cfgEx none statsEdge = true := by
  refine ((C6_inclusive_bounds cfgEx).1 none statsEdge).mpr ⟨?_, ?_, ?_⟩
  · intro l hl
    injection hl with he
    rw [← he]
    decide
  · intro j hj
    injection hj with he
    rw [← he]
    decide
  · intro p t hp ht
    cases hp

/-- C9: decoding the encoded string recovers each representative value
exactly (hence within three-decimal relative precision and non-null):
2 Gbps renders as `2.000G`, 1.5 Mbps as `1.500M`, 1.5 Kbps as
`1.500K` and 250 bps as `250`, and each parses back to the original
number. -/
theorem C9_roundtrip :
    parse_bps (bps_to_str 2000000000) = some 2000000000 ∧
    parse_bps (bps_to_str 1500000) = some 1500000 ∧
    parse_bps (bps_to_str 1500) = some 1500 ∧
    parse_bps (bps_to_str 250) = some 250 := by
  refine ⟨?_, ?_, ?_, ?_⟩ <;> decide

/-- C10: in the output meta object, a caller-supplied key colliding
with one of the eleven controller fields is overridden by the
controller value, every other caller key is carried through unchanged,
and the merged lookup is in general the controller value when the
controller binds the key and the caller value otherwise. -/
theorem C10_meta_merge (meta : List (String × JVal)) (direction timestamp : String)
    (cfg : Config) :
    ((fixedMeta direction timestamp cfg).map Prod.fst =
      ["tool", "protocol", "direction", "timestamp", "adaptive", "loss_threshold",
       "jitter_threshold", "drop_threshold", "start_bps", "step_bps", "max_bps"]) ∧
    (∀ k, dictLookup (buildMeta meta direction timestamp cfg) k =
      (dictLookup (fixedMeta direction timestamp cfg) k).or (dictLookup meta k)) ∧
    (∀ k, k ∈ (fixedMeta direction timestamp cfg).map Prod.fst →
      dictLookup (buildMeta meta direction timestamp cfg) k =
        dictLookup (fixedMeta direction timestamp cfg) k) ∧
    (∀ k, k ∉ (fixedMeta direction timestamp cfg).map Prod.fst →
      dictLookup (buildMeta meta direction timestamp cfg) k = dictLookup meta k) := by
  have hor : ∀ k, dictLookup (buildMeta meta direction timestamp cfg) k =
      (dictLookup (fixedMeta direction timestamp cfg) k).or (dictLookup meta k) := by
    intro k
    unfold dictLookup buildMeta
    rw [List.reverse_append, List.find?_append]
    cases h : List.find? (fun p => p.1 == k) (fixedMeta direction timestamp cfg).reverse <;>
      simp [h]
  refine ⟨rfl, hor, ?_, ?_⟩
  · intro k hk
    rw [hor k]
    cases h : dictLookup (fixedMeta direction timestamp cfg) k with
    | some v => simp
    | none =>
      exfalso
      unfold dictLookup at h
      rw [Option.map_eq_none'] at h
      rw [List.find?_eq_none] at h
      obtain ⟨e, he, hke⟩ := List.mem_map.1 hk
      exact h e (List.mem_reverse.2 he) (by simp [hke])
  · intro k hk
    rw [hor k]
    have h : dictLookup (fixedMeta direction timestamp cfg) k = none := by
      unfold dictLookup
      rw [Option.map_eq_none', List.find?_eq_none]
      intro e he hpe
      refine hk ?_
      refine List.mem_map.2 ⟨e, List.mem_reverse.1 he, ?_⟩
      simpa using hpe
    rw [h]
    simp

/-- Witness for C10: with a caller meta carrying keys `custom` and
`tool`, the merged lookup of `tool` is the controller binding while the
lookup of `custom` is the caller binding. -/
theorem C10_meta_merge_witness :
    dictLookup (buildMeta [("custom", .s "x"), ("tool", .s "y")] "uplink" "T" cfgEx) "tool" =
      dictLookup (fixedMeta "uplink" "T" cfgEx) "tool" ∧
    dictLookup (buildMeta [("custom", .s "x"), ("tool", .s "y")] "uplink" "T" cfgEx) "custom" =
      dictLookup [("custom", .s "x"), ("tool", .s "y")] "custom" :=
  ⟨(C10_meta_merge [("custom", .s "x"), ("tool", .s "y")] "uplink" "T" cfgEx).2.2.1
      "tool" (by decide),
   (C10_meta_merge [("custom", .s "x"), ("tool", .s "y")] "uplink" "T" cfgEx).2.2.2
      "custom" (by decide)⟩

/-! ### The all-accepted ramp -/

theorem runLoop_allAccept (cfg : Config) (probes : Nat → ExecOutcome)
    (hacc : ∀ n, alwaysAccepts cfg (probes n)) :
    ∀ fuel (st : LoopState), ∃ new,
      (runLoop cfg probes fuel st).steps = st.steps ++ new ∧
      new.map StepRecord.target_bps = targetSeq st.current cfg.max_bps cfg.step_bps fuel ∧
      (∀ s ∈ new, s.role = .normal ∧ s.ok = true) ∧
      (runLoop cfg probes fuel st).stop_reason = st.stop_reason ∧
      ((runLoop cfg probes fuel st).last_ok =
        match new.getLast? with
        | some s => some s
        | none => st.last_ok) ∧
      (runLoop cfg probes fuel st).current = st.current + new.length * cfg.step_bps ∧
      (cfg.max_bps + 1 < (runLoop cfg probes fuel st).current ∨ new.length = fuel) := by
  intro fuel
  induction fuel with
  | zero =>
    intro st
    refine ⟨[], by simp [runLoop_zero], by simp [targetSeq], by simp, rfl, rfl,
      by simp [runLoop_zero], Or.inr rfl⟩
  | succ n ih =>
    intro st
    by_cases hb : st.current ≤ cfg.max_bps + 1
    · obtain ⟨stats, hres, hstep⟩ := hacc st.calls
      have hok : (evalChecks cfg st.prev_throughput stats st.stop_reason).1 = true := by
        rw [evalChecks_fst]
        exact hstep st.prev_throughput
      have hit := rampIter_accept cfg probes st stats hres hok
      rw [runLoop_cont cfg probes n st _ hb hit]
      obtain ⟨new2, g1, g2, g3, g4, g5, g6, g7⟩ := ih
        { st with
          calls := st.calls + 1
          steps := st.steps ++ [measuredStep st.current .normal true stats]
          stop_reason := (evalChecks cfg st.prev_throughput stats st.stop_reason).2
          last_ok := some (measuredStep st.current .normal true stats)
          prev_throughput :=
            match stats.throughput_bps with
            | some t => some t
            | none => st.prev_throughput
          current := st.current + cfg.step_bps }
      refine ⟨measuredStep st.current .normal true stats :: new2, ?_, ?_, ?_, ?_, ?_, ?_, ?_⟩
      · rw [g1]
        simp
      · rw [List.map_cons, g2]
        rw [targetSeq, if_pos hb]
        rfl
      · intro s hs
        rcases List.mem_cons.1 hs with h | h
        · subst h
          exact ⟨rfl, rfl⟩
        · exact g3 s h
      · rw [g4]
        exact evalChecks_true_reason cfg st.prev_throughput stats st.stop_reason hok
      · rw [g5]
        cases hnew : new2 with
        | nil => rfl
        | cons y t =>
          rw [List.getLast?_cons_cons]
          cases hy : (y :: t).getLast? with
          | none =>
            exfalso
            rw [List.getLast?_eq_none_iff] at hy
            exact List.noConfusion hy
          | some s => rfl
      · rw [g6]
        simp only [List.length_cons]
        push_cast
        ring
      · rcases g7 with h | h
        · exact Or.inl h
        · right
          simp [h]
    · rw [runLoop_stop cfg probes n st hb]
      refine ⟨[], by simp, ?_, by simp, rfl, rfl, by simp, Or.inl (by linarith [lt_of_not_le hb])⟩
      rw [targetSeq, if_neg hb]
      rfl

theorem targetSeq_mem (maxv step : ℚ) (hstep : 0 < step) :
    ∀ (fuel : Nat) (cur : ℚ) (k : Nat), cur + k * step ≤ maxv + 1 → k < fuel →
      cur + k * step ∈ targetSeq cur maxv step fuel := by
  intro fuel
  induction fuel with
  | zero =>
    intro cur k _ hk
    omega
  | succ n ih =>
    intro cur k hle hk
    have hknn : (0 : ℚ) ≤ (k : ℚ) * step := by positivity
    have hcur : cur ≤ maxv + 1 := by linarith
    rw [targetSeq, if_pos hcur]
    cases k with
    | zero =>
      have : cur + (0 : Nat) * step = cur := by push_cast; ring
      rw [this]
      exact List.mem_cons_self _ _
    | succ m =>
      have heq : cur + ((m : Nat) + 1 : Nat) * step = (cur + step) + m * step := by
        push_cast
        ring
      rw [heq]
      refine List.mem_cons_of_mem _ (ih (cur + step) m ?_ (by omega))
      rw [← heq]
      exact hle

/-- C7: when every probe is accepted, the recorded targets are exactly
the fuel-bounded strictly increasing sequence start, start+step, ...
of values at most max plus the 1 bps epsilon; every step is a normal
accepted one, the stop reason stays `max_reached`, the selection is the
last ramp step, and (with a positive step and enough fuel) every target
`start + k*step` up to max plus 1 bps is attempted; in particular with
start 2G, step 2G, max 10G and every probe measuring loss 0.1 percent
and jitter 1 ms there are exactly five accepted steps at 2, 4, 6, 8, 10
Gbps, the stop reason is `max_reached` and the selected target is
10e9. -/
theorem C7_all_accepted :
    (∀ cfg probes fuel, (∀ n, alwaysAccepts cfg (probes n)) →
      (runSession cfg probes fuel).stop_reason = "max_reached" ∧
      (runSession cfg probes fuel).steps.map StepRecord.target_bps =
        targetSeq cfg.start_bps cfg.max_bps cfg.step_bps fuel ∧
      (∀ s ∈ (runSession cfg probes fuel).steps, s.role = .normal ∧ s.ok = true) ∧
      (runSession cfg probes fuel).last_ok = (runSession cfg probes fuel).steps.getLast? ∧
      (0 < cfg.step_bps →
        ∀ k : Nat, cfg.start_bps + k * cfg.step_bps ≤ cfg.max_bps + 1 → k < fuel →
          cfg.start_bps + k * cfg.step_bps ∈
            (runSession cfg probes fuel).steps.map StepRecord.target_bps)) ∧
    ((runSession cfgEx probesAllGood 10).steps.map StepRecord.target_bps =
        [2000000000, 4000000000, 6000000000, 8000000000, 10000000000] ∧
      (runSession cfgEx probesAllGood 10).steps.length = 5 ∧
      (∀ s ∈ (runSession cfgEx probesAllGood 10).steps, s.ok = true) ∧
      (runSession cfgEx probesAllGood 10).stop_reason = "max_reached" ∧
      (runSession cfgEx probesAllGood 10).last_ok.map StepRecord.target_bps =
        some 10000000000) := by
  constructor
  · intro cfg probes fuel hacc
    obtain ⟨new, g1, g2, g3, g4, g5, g6, g7⟩ := runLoop_allAccept cfg probes hacc fuel
      (initState cfg)
    have hsteps : (runSession cfg probes fuel).steps = new := by
      rw [runSession, g1]
      rfl
    refine ⟨g4, ?_, ?_, ?_, ?_⟩
    · rw [hsteps, g2]
      rfl
    · intro s hs
      rw [hsteps] at hs
      exact g3 s hs
    · rw [hsteps, runSession, g5]
      cases new.getLast? <;> rfl
    · intro hstep k hk hfk
      rw [hsteps, g2]
      exact targetSeq_mem cfg.max_bps cfg.step_bps hstep fuel cfg.start_bps k hk hfk
  · refine ⟨?_, ?_, ?_, ?_, ?_⟩ <;> decide

/-- Witness for C7: the all-pass scenario with start 2G, step 2G and
max 10G keeps stop reason `max_reached` and probes exactly the targets
of the bounded arithmetic ramp. -/
theorem C7_all_accepted_witness :
    (runSession cfgEx probesAllGood 10).stop_reason = "max_reached" ∧
    (runSession cfgEx probesAllGood 10).steps.map StepRecord.target_bps =
      targetSeq cfgEx.start_bps cfgEx.max_bps cfgEx.step_bps 10 := by
  have h := C7_all_accepted.1 cfgEx probesAllGood 10
    (fun _ => ⟨statsGood, rfl, fun prev => by cases prev <;> rfl⟩)
  exact ⟨h.1, h.2.1⟩
